import Mathlib

/-!
Verification of the GhostDrop ephemeral-object lifecycle engine.

This file gives a shallow embedding of the backend code that the claims
concern:

- the S3 service helpers in src/backend/src/routes/folderRoutes.js
  (the bundled sources contain the cleanup service, the v2 and v3 variants
  of s3Services.js in that file): getObjectKey, completeMultipart,
  abortMultipart, deleteS3Objects, softDeleteExpiredFiles,
  hardDeleteSoftDeletedFiles, runCleanup;
- the upload completion controller in
  src/backend/src/controllers/fileController.js (complete);
- the Joi request validation in src/backend/src/utils (completeUploadSchema,
  validate);
- the persistence schema of the deletion audit log from the migration
  20250913161222_add_deletion_log_table (the DeletionActivity table and its
  foreign key DeletionActivity_fileId_fkey with ON DELETE NO ACTION).

Remote storage (S3) and the database are modeled by explicit state passing;
the outcomes of fallible remote and database operations are supplied by
oracle functions, so that every execution path of the JavaScript code is a
reachable run of the model.  Timestamps are integers (milliseconds).
-/

/-! ## Data model: rows of the File table and of the DeletionActivity table -/

/-- A row of the File table (the StoredObject of the spec): the fields the
lifecycle engine reads and writes. -/
structure FileRow where
  id : Nat
  s3Key : String
  fileName : String
  ownerId : Option String
  expiry : Option Int
  deletedAt : Option Int
deriving Repr, DecidableEq

/-- The DeletionStatus enum created by the migration. -/
inductive DelStatus where
  | SUCCESS_SOFT_DELETE
  | SUCCESS_HARD_DELETE
  | FAILED_S3
  | FAILED_DB
deriving Repr, DecidableEq

/-- A row of the DeletionActivity table, as written by logDeletionActivity
in folderRoutes.js. -/
structure DeletionActivity where
  fileId : Nat
  userId : Option String
  s3Key : String
  fileName : String
  reason : String
  status : DelStatus
  error : Option String
deriving Repr, DecidableEq

/-- BATCH_SIZE = 100 in folderRoutes.js. -/
def BATCH_SIZE : Nat := 100

/-- RETRY_ATTEMPTS = 3 in folderRoutes.js. -/
def RETRY_ATTEMPTS : Nat := 3

/-- RETRY_DELAY_MS = 5000 in folderRoutes.js.  The delay is wall-clock time
spent sleeping between retries; it does not affect the state transitions
modeled here. -/
def RETRY_DELAY_MS : Nat := 5000

/-! ## Multipart parts and the completeMultipart sort

completeMultipart in s3Services does
  const sorted = parts.sort((a, b) => a.partNumber - b.partNumber);
Array.prototype.sort with this comparator is, by the ECMAScript standard, a
stable sort ascending by partNumber.  A stable sort result is uniquely
determined by the key order, so it is modeled by insertion sort with the
non-strict key comparison, which is stable in exactly the same way. -/

/-- A validated element of the parts array: partNumber and eTag. -/
structure UploadPart where
  partNumber : Int
  eTag : String
deriving Repr, DecidableEq

/-- The comparator order used by completeMultipart: ascending partNumber. -/
def partLE (a b : UploadPart) : Prop := a.partNumber ≤ b.partNumber

/-- The strict version of the comparator order. -/
def partLT (a b : UploadPart) : Prop := a.partNumber < b.partNumber

instance : DecidableRel partLE := fun a b =>
  inferInstanceAs (Decidable (a.partNumber ≤ b.partNumber))

instance : DecidableRel partLT := fun a b =>
  inferInstanceAs (Decidable (a.partNumber < b.partNumber))

instance : IsTotal UploadPart partLE := ⟨fun a b => Int.le_total a.partNumber b.partNumber⟩

instance : IsTrans UploadPart partLE := ⟨fun _ _ _ h1 h2 => le_trans h1 h2⟩

instance : IsAntisymm UploadPart partLT :=
  ⟨fun _ _ h1 h2 => absurd h1 (not_lt_of_ge (le_of_lt h2))⟩

/-- The result of parts.sort((a, b) => a.partNumber - b.partNumber): the
stable sort of the list ascending by partNumber. -/
def jsSortParts (parts : List UploadPart) : List UploadPart :=
  List.insertionSort partLE parts

/-- The CompleteMultipartUploadCommand request built by completeMultipart:
bucket key, upload id, and the Parts list of (ETag, PartNumber) pairs in
the sorted order. -/
structure S3CompleteReq where
  key : String
  uploadId : String
  parts : List (String × Int)
deriving Repr, DecidableEq

/-- completeMultipart (s3Services): sort the supplied parts by partNumber
and build the assembly request from the sorted list. -/
def completeMultipartRequest (key uploadId : String) (parts : List UploadPart) : S3CompleteReq :=
  { key := key
    uploadId := uploadId
    parts := (jsSortParts parts).map (fun p => (p.eTag, p.partNumber)) }

/-- The observable outcome of one call to completeMultipart: the request it
sends, and the caller-visible parts array after the call.
Array.prototype.sort sorts the array IN PLACE and returns the same array,
so after the call the caller-supplied array holds the sorted order. -/
structure MultipartCallOut where
  request : S3CompleteReq
  partsAfter : List UploadPart
deriving Repr, DecidableEq

/-- The call parts.sort mutates the argument array; partsAfter is the state
of the caller array once completeMultipart returns. -/
def completeMultipartCall (key uploadId : String) (parts : List UploadPart) : MultipartCallOut :=
  { request := completeMultipartRequest key uploadId parts
    partsAfter := jsSortParts parts }

/-! ## Joi validation of the completion request (completeUploadSchema) -/

/-- An element of the raw (unvalidated) parts array. -/
structure RawPart where
  partNumber : Option Int
  eTag : Option String
deriving Repr, DecidableEq

/-- The raw body of a POST /complete request, before Joi validation.
Absent and null fields are both Option.none.  The optional nullable
passthrough fields expiry (ISO date) and encryptedKeyMetadata are carried
without their format checks, which no claim exercises. -/
structure RawCompleteReq where
  s3Key : Option String
  multipart : Option Bool
  uploadId : Option String
  parts : Option (List RawPart)
  fileName : Option String
  mimeType : Option String
  size : Option Int
  encryptedKeyMetadata : Option String
  folderId : Option String
  expiry : Option Int
deriving Repr, DecidableEq

/-- Joi uuid format for folderId: 8-4-4-4-12 hex groups separated by
dashes. -/
def isHexDigit (c : Char) : Bool :=
  c.isDigit || (('a' ≤ c) && (c ≤ 'f')) || (('A' ≤ c) && (c ≤ 'F'))

/-- Joi string().uuid() shape check. -/
def isUuidLike (s : String) : Bool :=
  let cs := s.toList
  (cs.length = 36) &&
    (cs.enum.all fun ci =>
      if ci.1 = 8 ∨ ci.1 = 13 ∨ ci.1 = 18 ∨ ci.1 = 23 then ci.2 = '-'
      else isHexDigit ci.2)

/-- Validity of one parts item under
Joi.object with partNumber: number().integer().min(1).required() and
eTag: string().required().  Joi strings reject the empty string. -/
def validRawPart (p : RawPart) : Bool :=
  (match p.partNumber with
   | some n => decide (1 ≤ n)
   | none => false) &&
  (match p.eTag with
   | some s => !(decide (s = ""))
   | none => false)

/-- The validated value produced by completeUploadSchema. -/
structure CompleteValue where
  s3Key : String
  multipart : Bool
  uploadId : Option String
  parts : Option (List UploadPart)
  fileName : String
  mimeType : String
  size : Int
  encryptedKeyMetadata : Option String
  folderId : Option String
  expiry : Option Int
deriving Repr, DecidableEq

/-- validate(req.body, completeUploadSchema) with abortEarly: false.  The
error value lists the offending field names.  Field rules, from
completeUploadSchema in src/backend/src/utils:
s3Key required nonempty string; multipart boolean default false;
uploadId and parts required when multipart and forbidden otherwise;
each parts item needs partNumber (integer, at least 1) and eTag
(nonempty); an empty parts ARRAY passes (the schema has no min(1));
fileName string of length 1..255; mimeType nonempty; size integer
at least 0; folderId optional uuid. -/
def validateComplete (r : RawCompleteReq) : Except (List String) CompleteValue :=
  let multipart := r.multipart.getD false
  let errs : List String :=
    (match r.s3Key with
     | some s => if s = "" then ["s3Key"] else []
     | none => ["s3Key"]) ++
    (if multipart then
      (match r.uploadId with
       | some s => if s = "" then ["uploadId"] else []
       | none => ["uploadId"]) ++
      (match r.parts with
       | some ps => if ps.all validRawPart then [] else ["parts"]
       | none => ["parts"])
    else
      (match r.uploadId with
       | some _ => ["uploadId"]
       | none => []) ++
      (match r.parts with
       | some _ => ["parts"]
       | none => [])) ++
    (match r.fileName with
     | some s => if 1 ≤ s.length ∧ s.length ≤ 255 then [] else ["fileName"]
     | none => ["fileName"]) ++
    (match r.mimeType with
     | some s => if s = "" then ["mimeType"] else []
     | none => ["mimeType"]) ++
    (match r.size with
     | some n => if 0 ≤ n then [] else ["size"]
     | none => ["size"]) ++
    (match r.folderId with
     | some s => if isUuidLike s then [] else ["folderId"]
     | none => [])
  if errs.isEmpty then
    Except.ok
      { s3Key := r.s3Key.getD ""
        multipart := multipart
        uploadId := r.uploadId
        parts := r.parts.map (List.map fun p => UploadPart.mk (p.partNumber.getD 0) (p.eTag.getD ""))
        fileName := r.fileName.getD ""
        mimeType := r.mimeType.getD ""
        size := r.size.getD 0
        encryptedKeyMetadata := r.encryptedKeyMetadata
        folderId := r.folderId
        expiry := r.expiry }
  else
    Except.error errs

/-! ## The complete controller (fileController.js)

The controller is modeled as a pure function of the request, the
authenticated user, the prior remote-object state, and an environment of
oracle outcomes for the fallible remote and database calls.  It returns the
HTTP-level response, the ordered trace of remote and database side effects,
the File rows created by the call, and the resulting remote-object state. -/

/-- Outcomes of the fallible calls made by complete, with the message each
failure would carry. -/
structure CompleteEnv where
  assembleFails : Bool
  assembleMsg : String
  abortFails : Bool
  abortMsg : String
  abort2Fails : Bool
  fileCreateFails : Bool
  fileCreateMsg : String
  activityFails : Bool
  activityMsg : String
deriving Repr, DecidableEq

/-- The side effects of the controller, in execution order. -/
inductive Event where
  | assemble (key uploadId : String) (parts : List UploadPart)
  | abortCall (key uploadId : String)
  | fileCreate (key : String)
  | activityCreate
deriving Repr, DecidableEq

/-- The response the controller produces: 400 with field errors, 401, 201
with the created file key, or an error forwarded to next(err). -/
inductive Response where
  | badRequest (errs : List String)
  | unauthorized
  | created (key : String)
  | serverError (msg : String)
deriving Repr, DecidableEq

/-- The full observable outcome of one call to complete. -/
structure CompleteOut where
  response : Response
  events : List Event
  createdKeys : List String
  remote : List String
deriving Repr, DecidableEq

/-- The safety-net in the outer catch of complete: when the thrown error
arrives with aborted still false and the RAW body has a truthy multipart
and a truthy uploadId, abortMultipart is attempted once more and any
failure of it is swallowed. -/
def safetyNetEvents (r : RawCompleteReq) : List Event :=
  if (r.multipart.getD false) &&
      (match r.uploadId with
       | some s => !(decide (s = ""))
       | none => false) then
    [Event.abortCall (r.s3Key.getD "") (r.uploadId.getD "")]
  else []

/-- The tail of complete after the multipart branch: prisma.file.create,
then prisma.activity.create, then the 201 response.  A failure of either
create throws to the outer catch, which runs the safety net and forwards
the error to next. -/
def completeAfterRemote (env : CompleteEnv) (req : RawCompleteReq) (v : CompleteValue)
    (evs0 : List Event) (remote : List String) : CompleteOut :=
  let evs1 := evs0 ++ [Event.fileCreate v.s3Key]
  if env.fileCreateFails then
    { response := Response.serverError env.fileCreateMsg
      events := evs1 ++ safetyNetEvents req
      createdKeys := []
      remote := remote }
  else
    let evs2 := evs1 ++ [Event.activityCreate]
    if env.activityFails then
      { response := Response.serverError env.activityMsg
        events := evs2 ++ safetyNetEvents req
        createdKeys := [v.s3Key]
        remote := remote }
    else
      { response := Response.created v.s3Key
        events := evs2
        createdKeys := [v.s3Key]
        remote := remote }

/-- The complete controller (fileController.js).  Control flow mirrored
from the source: validate, authenticate, and for multipart call
completeMultipart inside a try whose catch awaits abortMultipart (which
RE-THROWS its own failure), sets aborted, and re-throws the assembly error
wrapped in a new message; then create the File row and the Activity row.
The outer catch runs the safety-net abort when aborted is still false and
forwards the caught error to next. -/
def completeCtrl (env : CompleteEnv) (auth : Option String) (remote0 : List String)
    (req : RawCompleteReq) : CompleteOut :=
  match validateComplete req with
  | Except.error es =>
    { response := Response.badRequest es, events := [], createdKeys := [], remote := remote0 }
  | Except.ok v =>
    match auth with
    | none =>
      { response := Response.unauthorized, events := [], createdKeys := [], remote := remote0 }
    | some _ =>
      if v.multipart then
        let asmEv := Event.assemble v.s3Key (v.uploadId.getD "") (jsSortParts (v.parts.getD []))
        if env.assembleFails then
          let evs := [asmEv, Event.abortCall v.s3Key (v.uploadId.getD "")]
          if env.abortFails then
            -- abortMultipart re-throws, so the abort error (not the
            -- assembly error) reaches the outer catch with aborted = false
            { response := Response.serverError env.abortMsg
              events := evs ++ safetyNetEvents req
              createdKeys := []
              remote := remote0 }
          else
            -- aborted = true; the wrapped assembly error reaches the outer
            -- catch, which skips the safety net
            { response :=
                Response.serverError ("Multipart upload failed and aborted: " ++ env.assembleMsg)
              events := evs
              createdKeys := []
              remote := remote0 }
        else
          completeAfterRemote env req v [asmEv] (v.s3Key :: remote0)
      else
        completeAfterRemote env req v [] remote0

/-! ## Stage 1: softDeleteExpiredFiles (folderRoutes.js)

State is the File table plus the DeletionActivity table plus the
filesProcessed counter.  The code computes now once, then loops: fetch a
batch (expiry < now, deletedAt null, ordered by id, take BATCH_SIZE), and
for every batch row issue the conditional update WHERE deletedAt IS NULL.
The raced oracle says, per file id, whether a concurrent scheduler run
soft-deletes the row between the fetch and the update: the update then
fails with P2025 and the code skips the row without logging; the external
write (some value raceTime) is what the next fetch sees.  The updFail
oracle is any other database error of the update: the code logs FAILED_DB
and leaves the row for the next loop iteration. -/

/-- State of the metadata store for stage 1: the files list is in id order
(the order the fetch returns). -/
structure SoftState where
  files : List FileRow
  audit : List DeletionActivity
  count : Nat
deriving Repr, DecidableEq

/-- The WHERE clause of the stage 1 fetch: expiry < now and deletedAt IS
NULL. -/
def expiredPending (now : Int) (f : FileRow) : Bool :=
  (match f.expiry with
   | some e => decide (e < now)
   | none => false) && f.deletedAt.isNone

/-- The stage 1 batch fetch: matching rows in id order, take BATCH_SIZE. -/
def softFetch (now : Int) (files : List FileRow) : List FileRow :=
  (files.filter (expiredPending now)).take BATCH_SIZE

/-- The audit entry logDeletionActivity writes for stage 1 outcomes. -/
def mkSoftAct (f : FileRow) (st : DelStatus) (err : Option String) : DeletionActivity :=
  { fileId := f.id
    userId := f.ownerId
    s3Key := f.s3Key
    fileName := f.fileName
    reason := "expired"
    status := st
    error := err }

/-- The per-row effect of the stage 1 loop body on the files list: rows of
the batch get deletedAt set to now on update success, to raceTime when the
concurrent run won the race, and stay untouched on another update error. -/
def softUpdateRow (raced updFail : Nat → Bool) (now raceTime : Int)
    (batchIds : List Nat) (g : FileRow) : FileRow :=
  if g.id ∈ batchIds then
    if raced g.id then { g with deletedAt := some raceTime }
    else if updFail g.id then g
    else { g with deletedAt := some now }
  else g

/-- The audit entry (if any) the stage 1 loop body writes for one batch
row: none in the P2025 race (the code only warns), FAILED_DB on another
update error, SUCCESS_SOFT_DELETE on success. -/
def softAuditOf (raced updFail : Nat → Bool) (f : FileRow) : Option DeletionActivity :=
  if raced f.id then none
  else if updFail f.id then some (mkSoftAct f DelStatus.FAILED_DB (some "db error"))
  else some (mkSoftAct f DelStatus.SUCCESS_SOFT_DELETE none)

/-- One iteration of the stage 1 while loop over a fetched batch. -/
def processSoftBatch (raced updFail : Nat → Bool) (now raceTime : Int)
    (batch : List FileRow) (st : SoftState) : SoftState :=
  { files := st.files.map (softUpdateRow raced updFail now raceTime (batch.map (·.id)))
    audit := st.audit ++ batch.filterMap (softAuditOf raced updFail)
    count := st.count + (batch.filter (fun f => !raced f.id && !updFail f.id)).length }

/-- The stage 1 drain: loop until the batch fetch returns empty.  The
while (true) loop of the source has no fuel; fuel-exhaustion (none) means
the loop has not terminated within the given number of iterations. -/
def softDeleteDrain (raced updFail : Nat → Bool) (now raceTime : Int) :
    Nat → SoftState → Option SoftState
  | 0, _ => none
  | Nat.succ fuel, st =>
    let batch := softFetch now st.files
    if batch.isEmpty then some st
    else softDeleteDrain raced updFail now raceTime fuel
      (processSoftBatch raced updFail now raceTime batch st)

/-! ## Stage 2: hardDeleteSoftDeletedFiles (folderRoutes.js)

deleteS3Objects sends one DeleteObjectsCommand for the given keys: on an
exception every key is reported failed; when S3 reports per-key Errors the
function returns deleted: [] and errors: the failed keys (note: NOT the
keys that succeeded in that attempt); with no reported errors every key is
reported deleted.  The retry loop runs RETRY_ATTEMPTS times, each time
passing only the previous errors, and stops early when errors is empty.
The s3 oracle gives the backend behavior of the n-th DeleteObjects call of
the run; the state records the argument list of every call made. -/

/-- The backend outcome of one DeleteObjectsCommand: either a per-key
Errors list (empty means full success), or a thrown exception. -/
inductive S3Resp where
  | errs (keys : List String)
  | exn
deriving Repr, DecidableEq

/-- The value deleteS3Objects resolves to. -/
structure DeleteResult where
  deleted : List String
  errors : List String
deriving Repr, DecidableEq

/-- deleteS3Objects (folderRoutes.js lines 38-64) given the backend
response for this call. -/
def deleteS3Objects (resp : S3Resp) (keys : List String) : DeleteResult :=
  if keys.isEmpty then { deleted := [], errors := [] }
  else
    match resp with
    | S3Resp.errs es =>
      if es.isEmpty then { deleted := keys, errors := [] }
      else { deleted := [], errors := es }
    | S3Resp.exn => { deleted := [], errors := keys }

/-- One call through the oracle, recording the argument keys.  keys = []
returns before reaching S3 and records no call. -/
def deleteS3ObjectsCall (s3 : Nat → S3Resp) (calls : List (List String))
    (keys : List String) : DeleteResult × List (List String) :=
  if keys.isEmpty then ({ deleted := [], errors := [] }, calls)
  else (deleteS3Objects (s3 calls.length) keys, calls ++ [keys])

/-- The retry loop of stage 2 (lines 177-186): up to RETRY_ATTEMPTS calls,
each on the errors of the previous result, stopping early on empty
errors. -/
def s3RetryGo (s3 : Nat → S3Resp) :
    Nat → DeleteResult → List (List String) → DeleteResult × List (List String)
  | 0, r, calls => (r, calls)
  | Nat.succ i, r, calls =>
    let rc := deleteS3ObjectsCall s3 calls r.errors
    if rc.1.errors.isEmpty then rc
    else s3RetryGo s3 i rc.1 rc.2

/-- State of stage 2: File table, audit table, the trace of DeleteObjects
call arguments, and the filesProcessed counter. -/
structure HardState where
  files : List FileRow
  audit : List DeletionActivity
  calls : List (List String)
  count : Nat
deriving Repr, DecidableEq

/-- The WHERE clause of the stage 2 fetch: deletedAt < cutoff and not
null. -/
def pastRetention (cutoff : Int) (f : FileRow) : Bool :=
  match f.deletedAt with
  | some d => decide (d < cutoff)
  | none => false

/-- The stage 2 batch fetch: matching rows in id order, take BATCH_SIZE. -/
def hardFetch (cutoff : Int) (files : List FileRow) : List FileRow :=
  (files.filter (pastRetention cutoff)).take BATCH_SIZE

/-- The audit entry logDeletionActivity writes for stage 2 outcomes. -/
def mkHardAct (f : FileRow) (st : DelStatus) (err : Option String) : DeletionActivity :=
  { fileId := f.id
    userId := f.ownerId
    s3Key := f.s3Key
    fileName := f.fileName
    reason := "hard_delete"
    status := st
    error := err }

/-- The per-row outcome of the DB cleanup loop (lines 191-208): given the
final deleted set, whether the row is removed, and the audit entry written.
The dbDelFail oracle is a prisma.file.delete error for that id. -/
def hardRowOutcome (dbDelFail : Nat → Bool) (deletedKeys : List String) (f : FileRow) :
    Bool × DeletionActivity :=
  if f.s3Key ∈ deletedKeys then
    if dbDelFail f.id then (false, mkHardAct f DelStatus.FAILED_DB (some "db error"))
    else (true, mkHardAct f DelStatus.SUCCESS_HARD_DELETE none)
  else
    (false, mkHardAct f DelStatus.FAILED_S3 (some "S3 deletion failed after retries"))

/-- One iteration of the stage 2 while loop: fetch the batch, run the
retried S3 batch delete on its keys, then remove the rows whose key is in
the final deleted set (and whose DB delete does not fail) and write one
audit entry per batch row. -/
def hardDeleteBatchStep (s3 : Nat → S3Resp) (dbDelFail : Nat → Bool) (cutoff : Int)
    (st : HardState) : HardState :=
  let batch := hardFetch cutoff st.files
  let keys := batch.map (·.s3Key)
  let rc := s3RetryGo s3 RETRY_ATTEMPTS { deleted := [], errors := keys } st.calls
  let removedIds :=
    (batch.filter (fun f => decide (f.s3Key ∈ rc.1.deleted) && !dbDelFail f.id)).map (·.id)
  { files := st.files.filter (fun g => !(decide (g.id ∈ removedIds)))
    audit := st.audit ++ batch.map (fun f => (hardRowOutcome dbDelFail rc.1.deleted f).2)
    calls := rc.2
    count := st.count + removedIds.length }

/-- The stage 2 drain: loop until the batch fetch returns empty; none is
fuel exhaustion, i.e. the while (true) loop has not terminated within the
given number of iterations. -/
def hardDeleteDrain (s3 : Nat → S3Resp) (dbDelFail : Nat → Bool) (cutoff : Int) :
    Nat → HardState → Option HardState
  | 0, _ => none
  | Nat.succ fuel, st =>
    if (hardFetch cutoff st.files).isEmpty then some st
    else hardDeleteDrain s3 dbDelFail cutoff fuel (hardDeleteBatchStep s3 dbDelFail cutoff st)

/-! ## The DeletionActivity foreign key (migration 20250913161222)

The migration declares
  ALTER TABLE DeletionActivity ADD CONSTRAINT DeletionActivity_fileId_fkey
  FOREIGN KEY (fileId) REFERENCES File(id) ON DELETE NO ACTION ...
Under ON DELETE NO ACTION, deleting a File row that existing
DeletionActivity rows reference raises a foreign key violation, and
inserting a DeletionActivity row whose fileId has no File row raises a
foreign key violation.  The model below applies these semantics to the
stage 2 success path (lines 191-202): prisma.file.delete then
logDeletionActivity(SUCCESS_HARD_DELETE), where a delete error is caught
and logged as FAILED_DB and a logging error is caught and swallowed. -/

/-- prisma.file.delete under the FK: none (an error) when an audit row
references the id, otherwise the table without the row. -/
def fkFileDelete (files : List FileRow) (acts : List DeletionActivity) (i : Nat) :
    Option (List FileRow) :=
  if acts.any (fun a => decide (a.fileId = i)) then none
  else some (files.filter (fun f => !(decide (f.id = i))))

/-- prisma.deletionActivity.create under the FK: the insert is dropped
(logDeletionActivity swallows the error) when no File row with the
referenced id exists. -/
def fkActivityInsert (files : List FileRow) (acts : List DeletionActivity)
    (a : DeletionActivity) : List DeletionActivity :=
  if files.any (fun f => decide (f.id = a.fileId)) then acts ++ [a] else acts

/-- The stage 2 success path for one row whose S3 delete succeeded, with
the FK of the migration enforced: delete the File row, then write the
SUCCESS_HARD_DELETE entry; on a delete error write FAILED_DB instead.
Returns the two tables. -/
def hardDeleteRowFK (files : List FileRow) (acts : List DeletionActivity) (f : FileRow) :
    List FileRow × List DeletionActivity :=
  match fkFileDelete files acts f.id with
  | some files2 => (files2, fkActivityInsert files2 acts (mkHardAct f DelStatus.SUCCESS_HARD_DELETE none))
  | none => (files, fkActivityInsert files acts (mkHardAct f DelStatus.FAILED_DB (some "fk violation")))

/-! ## runCleanup (folderRoutes.js lines 220-246) -/

/-- A JSON value of the object runCleanup resolves to. -/
inductive JVal where
  | s (v : String)
  | n (v : Nat)
deriving Repr, DecidableEq

/-- runCleanup: run stage 1 then stage 2 (cutoff = now minus
SOFT_DELETE_RETENTION_MINUTES in milliseconds) and return the literal
  { message, softDeleted, hardDeleted }
object, modeled as an association list to keep the key names observable.
The stages catch their own per-item errors (the oracles) and runCleanup
additionally wraps each stage in try/catch, so no oracle outcome makes the
entry point throw; none only reports fuel exhaustion of a drain loop. -/
def runCleanup (raced updFail : Nat → Bool) (s3 : Nat → S3Resp) (dbDelFail : Nat → Bool)
    (now raceTime retentionMinutes : Int) (fuel : Nat)
    (files : List FileRow) (audit : List DeletionActivity) :
    Option (List (String × JVal) × List FileRow × List DeletionActivity) :=
  match softDeleteDrain raced updFail now raceTime fuel
      { files := files, audit := audit, count := 0 } with
  | none => none
  | some s1 =>
    match hardDeleteDrain s3 dbDelFail (now - retentionMinutes * 60 * 1000) fuel
        { files := s1.files, audit := s1.audit, calls := [], count := 0 } with
    | none => none
    | some s2 =>
      some ([("message", JVal.s "Cleanup service executed"),
             ("softDeleted", JVal.n s1.count),
             ("hardDeleted", JVal.n s2.count)],
            s2.files, s2.audit)

/-! ## Audit count helpers and concrete instances used by the claims -/

/-- Number of audit entries for a given file id. -/
def countFor (audit : List DeletionActivity) (i : Nat) : Nat :=
  audit.countP (fun a => decide (a.fileId = i))

/-- Number of SOFT_DELETED audit entries for a given file id. -/
def countSoftFor (audit : List DeletionActivity) (i : Nat) : Nat :=
  audit.countP (fun a => decide (a.fileId = i ∧ a.status = DelStatus.SUCCESS_SOFT_DELETE))

/-- An environment in which every fallible call succeeds. -/
def envAllOk : CompleteEnv :=
  { assembleFails := false, assembleMsg := ""
    abortFails := false, abortMsg := ""
    abort2Fails := false
    fileCreateFails := false, fileCreateMsg := ""
    activityFails := false, activityMsg := "" }

/-- A valid single-shot completion request whose remote object was never
uploaded. -/
def c3Req : RawCompleteReq :=
  { s3Key := some "k1", multipart := some false, uploadId := none, parts := none
    fileName := some "doc.txt", mimeType := some "text/plain", size := some 4
    encryptedKeyMetadata := none, folderId := none, expiry := none }

/-- An environment where multipart assembly fails and the abort of the
session fails as well. -/
def c6Env : CompleteEnv :=
  { assembleFails := true, assembleMsg := "assembly error"
    abortFails := true, abortMsg := "abort error"
    abort2Fails := true
    fileCreateFails := false, fileCreateMsg := ""
    activityFails := false, activityMsg := "" }

/-- A valid multipart completion request with one part. -/
def c6Req : RawCompleteReq :=
  { s3Key := some "k1", multipart := some true, uploadId := some "u1"
    parts := some [{ partNumber := some 1, eTag := some "e1" }]
    fileName := some "doc.txt", mimeType := some "text/plain", size := some 4
    encryptedKeyMetadata := none, folderId := none, expiry := none }

/-- An environment where only multipart assembly fails; the abort
succeeds. -/
def c6EnvAbortOk : CompleteEnv :=
  { assembleFails := true, assembleMsg := "assembly error"
    abortFails := false, abortMsg := ""
    abort2Fails := false
    fileCreateFails := false, fileCreateMsg := ""
    activityFails := false, activityMsg := "" }

/-- The validated value of c6Req. -/
def c6Val : CompleteValue :=
  { s3Key := "k1", multipart := true, uploadId := some "u1"
    parts := some [{ partNumber := 1, eTag := "e1" }]
    fileName := "doc.txt", mimeType := "text/plain", size := 4
    encryptedKeyMetadata := none, folderId := none, expiry := none }

/-- A multipart completion request whose parts array is EMPTY. -/
def c8Req : RawCompleteReq :=
  { s3Key := some "k1", multipart := some true, uploadId := some "u1"
    parts := some []
    fileName := some "doc.txt", mimeType := some "text/plain", size := some 4
    encryptedKeyMetadata := none, folderId := none, expiry := none }

/-- The validated value the schema produces for c8Req: the empty parts
array passes. -/
def c8Val : CompleteValue :=
  { s3Key := "k1", multipart := true, uploadId := some "u1", parts := some []
    fileName := "doc.txt", mimeType := "text/plain", size := 4
    encryptedKeyMetadata := none, folderId := none, expiry := none }

/-- A multipart completion request with a malformed parts item
(partNumber 0 violates min(1)). -/
def c8BadReq : RawCompleteReq :=
  { s3Key := some "k1", multipart := some true, uploadId := some "u1"
    parts := some [{ partNumber := some 0, eTag := some "e1" }]
    fileName := some "doc.txt", mimeType := some "text/plain", size := some 4
    encryptedKeyMetadata := none, folderId := none, expiry := none }

/-- A soft-deleted row past retention, used for stage 2 runs. -/
def c1Row (i : Nat) (k : String) : FileRow :=
  { id := i, s3Key := k, fileName := k, ownerId := none, expiry := some 0, deletedAt := some 0 }

/-- Five soft-deleted rows past retention (the batch of the spec
scenario). -/
def c1Files : List FileRow :=
  [c1Row 1 "k1", c1Row 2 "k2", c1Row 3 "k3", c1Row 4 "k4", c1Row 5 "k5"]

/-- The S3 backend of the scenario: every DeleteObjects call reports keys
k4 and k5 failed (k1, k2, k3 are deleted in the first call, and the later
calls only receive k4 and k5). -/
def c1S3 : Nat → S3Resp := fun _ => S3Resp.errs ["k4", "k5"]

/-- Stage 2 state holding the five rows. -/
def c1State : HardState := { files := c1Files, audit := [], calls := [], count := 0 }

/-- A soft-deleted row whose remote delete always fails. -/
def c4Row : FileRow :=
  { id := 1, s3Key := "k1", fileName := "doc.txt", ownerId := none
    expiry := some 0, deletedAt := some 0 }

/-- An S3 backend whose DeleteObjects call always throws. -/
def c4S3 : Nat → S3Resp := fun _ => S3Resp.exn

/-- A soft-deleted row reaching the hard-delete stage. -/
def c2Row : FileRow :=
  { id := 1, s3Key := "k1", fileName := "doc.txt", ownerId := some "user1"
    expiry := some 0, deletedAt := some 0 }

/-- The SOFT_DELETED audit entry stage 1 wrote for c2Row. -/
def c2SoftEntry : DeletionActivity := mkSoftAct c2Row DelStatus.SUCCESS_SOFT_DELETE none

/-- An expired row not yet soft-deleted, for the stage 1 runs. -/
def c5Row : FileRow :=
  { id := 1, s3Key := "k1", fileName := "doc.txt", ownerId := none
    expiry := some 1, deletedAt := none }

/-- Stage 1 state holding the expired row. -/
def c5State : SoftState := { files := [c5Row], audit := [], count := 0 }

/-- The stage 1 result on c5State with no races and no update errors. -/
def c5Post : SoftState :=
  { files := [{ c5Row with deletedAt := some 5 }]
    audit := [mkSoftAct c5Row DelStatus.SUCCESS_SOFT_DELETE none]
    count := 1 }

/-- The object runCleanup resolves to on an empty store. -/
def c9Json : List (String × JVal) :=
  [("message", JVal.s "Cleanup service executed"),
   ("softDeleted", JVal.n 0), ("hardDeleted", JVal.n 0)]

/-! ## Theorems -/

/-- A list sorted under the non-strict part order whose keys are distinct
is sorted under the strict part order. -/
theorem sortedLT_of_sortedLE_nodupKeys (l : List UploadPart)
    (hs : List.Sorted partLE l) (hn : (l.map UploadPart.partNumber).Nodup) :
    List.Sorted partLT l := by
  have hne : l.Pairwise (fun a b => a.partNumber ≠ b.partNumber) := List.pairwise_map.mp hn
  exact (List.Pairwise.and hs hne).imp (fun h => lt_of_le_of_ne h.1 h.2)

/-- Claim C10: completeMultipart sorts the caller-supplied parts array in
place (Array.prototype.sort on the argument), so after any multipart
completion call the caller array is a reordering of the original that is
ascending by partNumber, and there are inputs on which the array visibly
changed. -/
theorem C10_sort_mutates_caller_array :
    (∀ (k u : String) (ps : List UploadPart),
        List.Sorted partLE (completeMultipartCall k u ps).partsAfter ∧
        List.Perm (completeMultipartCall k u ps).partsAfter ps) ∧
    (completeMultipartCall "key1" "upload1"
        [UploadPart.mk 2 "b", UploadPart.mk 1 "a"]).partsAfter ≠
      [UploadPart.mk 2 "b", UploadPart.mk 1 "a"] := by
  refine ⟨fun k u ps =>
    ⟨List.sorted_insertionSort partLE ps, List.perm_insertionSort partLE ps⟩, by decide⟩

/-- Claim C7, counterexample: with a duplicated partNumber (which the Joi
schema accepts) two orderings of the same parts multiset produce DIFFERENT
assembly requests, because the stable sort keeps ties in input order. -/
theorem C7_counterexample :
    List.Perm [UploadPart.mk 1 "a", UploadPart.mk 1 "b"]
      [UploadPart.mk 1 "b", UploadPart.mk 1 "a"] ∧
    completeMultipartRequest "key1" "upload1" [UploadPart.mk 1 "a", UploadPart.mk 1 "b"] ≠
      completeMultipartRequest "key1" "upload1" [UploadPart.mk 1 "b", UploadPart.mk 1 "a"] := by
  exact ⟨List.Perm.swap (UploadPart.mk 1 "b") (UploadPart.mk 1 "a") [], by decide⟩

/-- Claim C7 (amended): when the partNumbers of the supplied parts are
pairwise distinct, any order of the parts list produces the same assembly
request as any other order of the same parts, since completeMultipart
sorts by partNumber before requesting assembly. -/
theorem C7_sort_order_independent (k u : String) (l1 l2 : List UploadPart)
    (hp : List.Perm l1 l2) (hn : (l1.map UploadPart.partNumber).Nodup) :
    completeMultipartRequest k u l1 = completeMultipartRequest k u l2 := by
  have h1 : List.Perm (jsSortParts l1) l1 := List.perm_insertionSort partLE l1
  have h2 : List.Perm (jsSortParts l2) l2 := List.perm_insertionSort partLE l2
  have hps : List.Perm (jsSortParts l1) (jsSortParts l2) := h1.trans (hp.trans h2.symm)
  have hn1 : ((jsSortParts l1).map UploadPart.partNumber).Nodup :=
    (h1.map UploadPart.partNumber).nodup_iff.mpr hn
  have hn2 : ((jsSortParts l2).map UploadPart.partNumber).Nodup :=
    (h2.map UploadPart.partNumber).nodup_iff.mpr
      ((hp.map UploadPart.partNumber).nodup_iff.mp hn)
  have heq : jsSortParts l1 = jsSortParts l2 :=
    List.eq_of_perm_of_sorted hps
      (sortedLT_of_sortedLE_nodupKeys _ (List.sorted_insertionSort partLE l1) hn1)
      (sortedLT_of_sortedLE_nodupKeys _ (List.sorted_insertionSort partLE l2) hn2)
  unfold completeMultipartRequest
  rw [heq]

/-- Witness for C7_sort_order_independent at a concrete pair of
orderings. -/
theorem C7_sort_order_independent_witness :
    List.Perm [UploadPart.mk 2 "b", UploadPart.mk 1 "a"]
      [UploadPart.mk 1 "a", UploadPart.mk 2 "b"] ∧
    ([UploadPart.mk 2 "b", UploadPart.mk 1 "a"].map UploadPart.partNumber).Nodup ∧
    completeMultipartRequest "key1" "upload1" [UploadPart.mk 2 "b", UploadPart.mk 1 "a"] =
      completeMultipartRequest "key1" "upload1" [UploadPart.mk 1 "a", UploadPart.mk 2 "b"] :=
  ⟨List.Perm.swap (UploadPart.mk 1 "a") (UploadPart.mk 2 "b") [], by decide,
    C7_sort_order_independent "key1" "upload1" _ _
      (List.Perm.swap (UploadPart.mk 1 "a") (UploadPart.mk 2 "b") []) (by decide)⟩

/-- Claim C3, counterexample: a valid single-shot completion on a key that
was never uploaded creates the metadata row (response 201) although the
remote object does not exist, so a row does NOT imply a remote object and
no remote confirmation precedes row creation in the single-shot path. -/
theorem C3_counterexample :
    (completeCtrl envAllOk (some "user1") [] c3Req).createdKeys = ["k1"] ∧
    (completeCtrl envAllOk (some "user1") [] c3Req).remote = [] ∧
    (completeCtrl envAllOk (some "user1") [] c3Req).response = Response.created "k1" := by
  decide

/-- Claim C3 (amended): for MULTIPART completions the remote-before-
metadata ordering does hold: whenever complete creates a metadata row, the
remote assembly call succeeded and the assembled object exists remotely.
Single-shot completions create the row with no remote confirmation. -/
theorem C3_multipart_row_implies_remote (env : CompleteEnv) (auth : Option String)
    (remote0 : List String) (req : RawCompleteReq) (v : CompleteValue)
    (hv : validateComplete req = Except.ok v) (hm : v.multipart = true)
    (hne : (completeCtrl env auth remote0 req).createdKeys ≠ []) :
    env.assembleFails = false ∧ v.s3Key ∈ (completeCtrl env auth remote0 req).remote := by
  simp only [completeCtrl, hv] at hne ⊢
  cases auth with
  | none => simp at hne
  | some u =>
    simp only [hm, if_true] at hne ⊢
    cases hA : env.assembleFails with
    | true =>
      cases hB : env.abortFails <;> simp [hA, hB] at hne
    | false =>
      refine ⟨rfl, ?_⟩
      simp only [Bool.false_eq_true, if_false, completeAfterRemote] at hne ⊢
      cases hF : env.fileCreateFails with
      | true => simp [hA, hF] at hne
      | false =>
        cases hAc : env.activityFails <;> simp [hAc]

/-- Witness for C3_multipart_row_implies_remote on a concrete successful
multipart completion. -/
theorem C3_multipart_row_implies_remote_witness :
    envAllOk.assembleFails = false ∧
    c6Val.s3Key ∈ (completeCtrl envAllOk (some "user1") [] c6Req).remote :=
  C3_multipart_row_implies_remote envAllOk (some "user1") [] c6Req c6Val rfl rfl (by decide)

/-- Claim C6, counterexample: when assembly fails AND the abort of the
session fails, the error forwarded to the caller is the abort error, not
the original assembly error (plain or wrapped) — the abort failure masks
the assembly failure, because abortMultipart re-throws and the inner catch
of complete does not guard the abort call. -/
theorem C6_counterexample :
    (completeCtrl c6Env (some "user1") [] c6Req).response = Response.serverError "abort error" ∧
    Response.serverError "abort error" ≠ Response.serverError "assembly error" ∧
    Response.serverError "abort error" ≠
      Response.serverError ("Multipart upload failed and aborted: " ++ "assembly error") := by
  refine ⟨by decide, by decide, by decide⟩

/-- Claim C6 (amended): on multipart assembly failure an abort against the
same key and session is always issued before any error is returned and no
metadata row is created; if the abort succeeds the returned error wraps
the original assembly error, but if the abort fails the abort error
replaces the assembly error in the response. -/
theorem C6_abort_before_error (env : CompleteEnv) (uid : String) (remote0 : List String)
    (req : RawCompleteReq) (v : CompleteValue)
    (hv : validateComplete req = Except.ok v) (hm : v.multipart = true)
    (hA : env.assembleFails = true) :
    (completeCtrl env (some uid) remote0 req).events.take 2 =
      [Event.assemble v.s3Key (v.uploadId.getD "") (jsSortParts (v.parts.getD [])),
       Event.abortCall v.s3Key (v.uploadId.getD "")] ∧
    (completeCtrl env (some uid) remote0 req).createdKeys = [] ∧
    (completeCtrl env (some uid) remote0 req).response =
      Response.serverError
        (if env.abortFails then env.abortMsg
         else "Multipart upload failed and aborted: " ++ env.assembleMsg) := by
  simp only [completeCtrl, hv]
  simp only [hm, if_true, hA]
  cases hB : env.abortFails <;> simp [hB]

/-- Witness for C6_abort_before_error on a concrete run where assembly
fails and the abort succeeds. -/
theorem C6_abort_before_error_witness :
    (completeCtrl c6EnvAbortOk (some "user1") [] c6Req).events.take 2 =
      [Event.assemble c6Val.s3Key (c6Val.uploadId.getD "") (jsSortParts (c6Val.parts.getD [])),
       Event.abortCall c6Val.s3Key (c6Val.uploadId.getD "")] ∧
    (completeCtrl c6EnvAbortOk (some "user1") [] c6Req).createdKeys = [] ∧
    (completeCtrl c6EnvAbortOk (some "user1") [] c6Req).response =
      Response.serverError
        (if c6EnvAbortOk.abortFails then c6EnvAbortOk.abortMsg
         else "Multipart upload failed and aborted: " ++ c6EnvAbortOk.assembleMsg) :=
  C6_abort_before_error c6EnvAbortOk "user1" [] c6Req c6Val rfl rfl rfl

/-- Claim C8, counterexample: an EMPTY parts array on a multipart
completion passes completeUploadSchema (the array schema has no minimum
length), and complete then attempts remote assembly with the empty list —
a malformed part list that is neither rejected synchronously nor free of
side effects. -/
theorem C8_counterexample :
    validateComplete c8Req = Except.ok c8Val ∧
    Event.assemble "k1" "u1" [] ∈ (completeCtrl envAllOk (some "user1") [] c8Req).events ∧
    (completeCtrl envAllOk (some "user1") [] c8Req).response = Response.created "k1" := by
  refine ⟨rfl, by decide, rfl⟩

/-- Claim C8 (amended): any request completeUploadSchema rejects (missing
or ill-typed fields, a parts item with partNumber below 1 or a missing
eTag, a missing or forbidden parts array) is refused synchronously with a
400 response and no side effects: no remote call, no row creation, and an
unchanged remote state.  An empty parts ARRAY, however, passes validation
and reaches remote assembly. -/
theorem C8_validation_rejects_sync (env : CompleteEnv) (auth : Option String)
    (remote0 : List String) (req : RawCompleteReq) (es : List String)
    (he : validateComplete req = Except.error es) :
    completeCtrl env auth remote0 req =
      { response := Response.badRequest es, events := [], createdKeys := [], remote := remote0 } := by
  simp only [completeCtrl, he]

/-- Witness for C8_validation_rejects_sync on a request whose parts item
has partNumber 0. -/
theorem C8_validation_rejects_sync_witness :
    validateComplete c8BadReq = Except.error ["parts"] ∧
    completeCtrl envAllOk (some "user1") [] c8BadReq =
      { response := Response.badRequest ["parts"], events := [], createdKeys := [], remote := [] } :=
  ⟨rfl, C8_validation_rejects_sync envAllOk (some "user1") [] c8BadReq ["parts"] rfl⟩

/-- Claim C9, counterexample: the object runCleanup resolves to has no
softDeletedCount or hardDeletedCount key; the two counts are under the
keys softDeleted and hardDeleted. -/
theorem C9_counterexample :
    (runCleanup (fun _ => false) (fun _ => false) (fun _ => S3Resp.errs []) (fun _ => false)
        0 0 10 1 [] []).map
      (fun r => (r.1.lookup "softDeletedCount", r.1.lookup "hardDeletedCount",
                 r.1.lookup "softDeleted", r.1.lookup "hardDeleted")) =
      some (none, none, some (JVal.n 0), some (JVal.n 0)) := by
  rfl

/-- Claim C9 (amended): whatever the per-item failure oracles do, whenever
runCleanup returns it yields exactly the object with keys message,
softDeleted and hardDeleted carrying the two counts — per-item failures
never surface as a thrown error, they only shape the counts and the audit
log. -/
theorem C9_result_shape (raced updFail : Nat → Bool) (s3 : Nat → S3Resp) (dbDelFail : Nat → Bool)
    (now raceTime retentionMinutes : Int) (fuel : Nat)
    (files : List FileRow) (audit : List DeletionActivity)
    (j : List (String × JVal)) (fs : List FileRow) (acts : List DeletionActivity)
    (h : runCleanup raced updFail s3 dbDelFail now raceTime retentionMinutes fuel files audit =
      some (j, fs, acts)) :
    ∃ sc hc : Nat,
      j = [("message", JVal.s "Cleanup service executed"),
           ("softDeleted", JVal.n sc), ("hardDeleted", JVal.n hc)] := by
  unfold runCleanup at h
  split at h
  · exact absurd h (by simp)
  · split at h
    · exact absurd h (by simp)
    · simp only [Option.some.injEq, Prod.mk.injEq] at h
      exact ⟨_, _, h.1.symm⟩

/-- Witness for C9_result_shape on an empty store. -/
theorem C9_result_shape_witness :
    ∃ sc hc : Nat,
      c9Json = [("message", JVal.s "Cleanup service executed"),
                ("softDeleted", JVal.n sc), ("hardDeleted", JVal.n hc)] :=
  C9_result_shape (fun _ => false) (fun _ => false) (fun _ => S3Resp.errs []) (fun _ => false)
    0 0 10 1 [] [] c9Json [] [] rfl

/-- Claim C1: on the spec scenario (batch of five keys, S3 reporting k4
and k5 failed at every attempt) one stage 2 batch iteration retries
exactly the failed keys (calls two and three receive only k4 and k5), but
because deleteS3Objects returns deleted as the empty list whenever S3
reports any per-key error, the keys k1, k2 and k3 — whose remote delete
succeeded in the first call — are NOT purged: every row survives, every
row gets a FAILED_S3 audit entry, no SUCCESS_HARD_DELETE entry is written
and the counter stays 0, contradicting the claimed partition. -/
theorem C1_partial_failure_run :
    (hardDeleteBatchStep c1S3 (fun _ => false) 10 c1State).calls =
      [["k1", "k2", "k3", "k4", "k5"], ["k4", "k5"], ["k4", "k5"]] ∧
    (hardDeleteBatchStep c1S3 (fun _ => false) 10 c1State).files = c1Files ∧
    (hardDeleteBatchStep c1S3 (fun _ => false) 10 c1State).audit.map
        (fun a => (a.s3Key, a.status)) =
      [("k1", DelStatus.FAILED_S3), ("k2", DelStatus.FAILED_S3), ("k3", DelStatus.FAILED_S3),
       ("k4", DelStatus.FAILED_S3), ("k5", DelStatus.FAILED_S3)] ∧
    (hardDeleteBatchStep c1S3 (fun _ => false) 10 c1State).count = 0 := by
  decide

/-- Claim C2: under the foreign key of the migration (ON DELETE NO
ACTION), the stage 2 success path cannot behave as claimed.  With the
SOFT_DELETED entry stage 1 wrote, prisma.file.delete violates the foreign
key, so the row is NOT removed and FAILED_DB is logged instead of
SUCCESS_HARD_DELETE; and when no audit entry references the row the delete
succeeds but the subsequent SUCCESS_HARD_DELETE insert violates the
foreign key and is silently dropped, leaving no HARD_DELETED record. -/
theorem C2_fk_breaks_audit :
    (hardDeleteRowFK [c2Row] [c2SoftEntry] c2Row).1 = [c2Row] ∧
    ((hardDeleteRowFK [c2Row] [c2SoftEntry] c2Row).2.filter
        (fun a => decide (a.status = DelStatus.SUCCESS_HARD_DELETE))).length = 0 ∧
    (hardDeleteRowFK [c2Row] [] c2Row).1 = [] ∧
    (hardDeleteRowFK [c2Row] [] c2Row).2 = [] := by
  decide

/-- Claim C4: the stage 2 drain does NOT terminate for every input state.
With a single soft-deleted row past retention whose batched remote delete
throws at every attempt, every iteration of the while (true) loop
re-fetches the same row, exhausts the three retry attempts, logs FAILED_S3
and leaves the row in place, so no amount of loop iterations reaches the
empty-batch exit: the row is retried indefinitely within ONE invocation
instead of being deferred to the next scheduler run. -/
theorem C4_drain_divergence :
    ∀ (fuel : Nat) (a : List DeletionActivity) (c : List (List String)) (n : Nat),
      hardDeleteDrain c4S3 (fun _ => false) 10 fuel
        { files := [c4Row], audit := a, calls := c, count := n } = none := by
  intro fuel
  induction fuel with
  | zero => intro a c n; rfl
  | succ k ih =>
    intro a c n
    rw [hardDeleteDrain]
    show (if (hardFetch 10 [c4Row]).isEmpty then
        some (HardState.mk [c4Row] a c n)
      else hardDeleteDrain c4S3 (fun _ => false) 10 k
        (hardDeleteBatchStep c4S3 (fun _ => false) 10 (HardState.mk [c4Row] a c n))) = none
    rw [if_neg (by decide)]
    exact ih _ _ _

/-- softUpdateRow never changes the id of a row. -/
theorem softUpdateRow_id (raced updFail : Nat → Bool) (now raceTime : Int)
    (ids : List Nat) (g : FileRow) :
    (softUpdateRow raced updFail now raceTime ids g).id = g.id := by
  unfold softUpdateRow
  split_ifs <;> rfl

/-- A stage 1 batch iteration preserves the id column of the File table. -/
theorem processSoftBatch_ids (raced updFail : Nat → Bool) (now raceTime : Int)
    (batch : List FileRow) (st : SoftState) :
    (processSoftBatch raced updFail now raceTime batch st).files.map (·.id) =
      st.files.map (·.id) := by
  simp only [processSoftBatch, List.map_map]
  exact List.map_congr_left fun a _ => softUpdateRow_id raced updFail now raceTime _ a

/-- Every audit entry stage 1 writes for a row carries that row id. -/
theorem softAuditOf_fileId (raced updFail : Nat → Bool) (b : FileRow) (a : DeletionActivity)
    (h : softAuditOf raced updFail b = some a) : a.fileId = b.id := by
  unfold softAuditOf at h
  split_ifs at h <;> simp only [Option.some.injEq] at h <;> subst h <;> rfl

/-- Batch rows come from the table and match the stage 1 WHERE clause. -/
theorem mem_softFetch (now : Int) (files : List FileRow) (f : FileRow)
    (h : f ∈ softFetch now files) : f ∈ files ∧ expiredPending now f = true := by
  unfold softFetch at h
  have h2 := List.mem_of_mem_take h
  exact ⟨(List.mem_filter.mp h2).1, (List.mem_filter.mp h2).2⟩

/-- The stage 1 batch is a sublist of the table. -/
theorem softFetch_sublist (now : Int) (files : List FileRow) :
    List.Sublist (softFetch now files) files :=
  (List.take_sublist _ _).trans (List.filter_sublist files)

/-- No audit entry produced from rows with other ids is counted for id
i. -/
theorem countP_filterMap_soft_zero (raced updFail : Nat → Bool) (bs : List FileRow) (i : Nat)
    (hb : ∀ b ∈ bs, b.id ≠ i) (p : DeletionActivity → Bool)
    (hp : ∀ a, p a = true → a.fileId = i) :
    (bs.filterMap (softAuditOf raced updFail)).countP p = 0 := by
  rw [List.countP_eq_zero]
  intro a ha hpa
  obtain ⟨b, hbmem, hba⟩ := List.mem_filterMap.mp ha
  exact hb b hbmem ((softAuditOf_fileId raced updFail b a hba).symm.trans (hp a hpa))

/-- Audit contribution of one stage 1 batch for a row of the batch: one
entry for the row on update success, none when the concurrent run won the
race. -/
theorem countFor_filterMap_soft (raced updFail : Nat → Bool) (batch : List FileRow)
    (f : FileRow) (hnd : (batch.map (·.id)).Nodup) (hf : f ∈ batch)
    (hupd : ∀ n, updFail n = false) :
    countFor (batch.filterMap (softAuditOf raced updFail)) f.id =
      (if raced f.id then 0 else 1) ∧
    (raced f.id = false →
      countSoftFor (batch.filterMap (softAuditOf raced updFail)) f.id = 1) := by
  induction batch with
  | nil => cases hf
  | cons b bs ih =>
    have hnd2 : (bs.map (·.id)).Nodup := (List.nodup_cons.mp hnd).2
    have hbnotin : b.id ∉ bs.map (·.id) := (List.nodup_cons.mp hnd).1
    rcases List.mem_cons.mp hf with rfl | hfbs
    · -- f is the head of the batch
      have hbs_ne : ∀ x ∈ bs, x.id ≠ f.id := by
        intro x hx hxe
        exact hbnotin (hxe ▸ List.mem_map_of_mem (·.id) hx)
      have hzero := countP_filterMap_soft_zero raced updFail bs f.id hbs_ne
        (fun a => decide (a.fileId = f.id)) (fun a ha => of_decide_eq_true ha)
      have hzeroSoft := countP_filterMap_soft_zero raced updFail bs f.id hbs_ne
        (fun a => decide (a.fileId = f.id ∧ a.status = DelStatus.SUCCESS_SOFT_DELETE))
        (fun a ha => (of_decide_eq_true ha).1)
      cases hr : raced f.id with
      | true =>
        have hnone : softAuditOf raced updFail f = none := by
          unfold softAuditOf; rw [if_pos hr]
        refine ⟨?_, fun h => absurd h (by simp)⟩
        rw [List.filterMap_cons_none hnone, if_pos rfl]
        exact hzero
      | false =>
        have hsome : softAuditOf raced updFail f =
            some (mkSoftAct f DelStatus.SUCCESS_SOFT_DELETE none) := by
          unfold softAuditOf; rw [if_neg (by simp [hr]), if_neg (by simp [hupd f.id])]
        constructor
        · rw [List.filterMap_cons_some hsome, if_neg (by simp)]
          rw [countFor, List.countP_cons, hzero]
          simp [mkSoftAct]
        · intro _
          rw [List.filterMap_cons_some hsome]
          rw [countSoftFor, List.countP_cons, hzeroSoft]
          simp [mkSoftAct]
    · -- f is in the tail of the batch
      have hbid_ne : b.id ≠ f.id := by
        intro h
        exact hbnotin (h ▸ List.mem_map_of_mem (·.id) hfbs)
      have htail := ih hnd2 hfbs
      cases hb : softAuditOf raced updFail b with
      | none =>
        rw [List.filterMap_cons_none hb]
        exact htail
      | some a =>
        have haid : a.fileId = b.id := softAuditOf_fileId raced updFail b a hb
        rw [List.filterMap_cons_some hb]
        constructor
        · rw [countFor, List.countP_cons]
          have hpa : (decide (a.fileId = f.id)) = false := by
            simp [haid, hbid_ne]
          rw [hpa]
          simpa [countFor] using htail.1
        · intro hr
          rw [countSoftFor, List.countP_cons]
          have hpa : (decide (a.fileId = f.id ∧ a.status = DelStatus.SUCCESS_SOFT_DELETE)) = false := by
            simp [haid, hbid_ne]
          rw [hpa]
          simpa [countSoftFor] using htail.2 hr

/-- Rows already soft-deleted are untouched by the rest of a stage 1
drain: they stay in the table and no further audit entry carries their
id. -/
theorem softDrain_stable (raced updFail : Nat → Bool) (now raceTime : Int) :
    ∀ (fuel : Nat) (st st2 : SoftState),
      softDeleteDrain raced updFail now raceTime fuel st = some st2 →
      (st.files.map (·.id)).Nodup →
      ∀ g ∈ st.files, g.deletedAt ≠ none →
        g ∈ st2.files ∧
        ∃ tail, st2.audit = st.audit ++ tail ∧ ∀ a ∈ tail, a.fileId ≠ g.id := by
  intro fuel
  induction fuel with
  | zero => intro st st2 h; cases h
  | succ k ih =>
    intro st st2 h hids g hg hgdel
    rw [softDeleteDrain] at h
    by_cases hb : (softFetch now st.files).isEmpty
    · rw [if_pos hb] at h
      cases h
      exact ⟨hg, [], by simp, by simp⟩
    · rw [if_neg hb] at h
      have hgid_notin : g.id ∉ (softFetch now st.files).map (·.id) := by
        intro hmem
        obtain ⟨b, hbmem, hbid⟩ := List.mem_map.mp hmem
        obtain ⟨hbfiles, hbexp⟩ := mem_softFetch now st.files b hbmem
        have hbg : b = g := List.inj_on_of_nodup_map hids hbfiles hg hbid
        rw [hbg] at hbexp
        unfold expiredPending at hbexp
        rcases hgd : g.deletedAt with _ | d
        · exact hgdel hgd
        · rw [hgd] at hbexp; simp at hbexp
      have hug : softUpdateRow raced updFail now raceTime
          ((softFetch now st.files).map (·.id)) g = g := by
        unfold softUpdateRow
        rw [if_neg hgid_notin]
      have hg1 : g ∈ (processSoftBatch raced updFail now raceTime
          (softFetch now st.files) st).files := by
        have := List.mem_map_of_mem
          (softUpdateRow raced updFail now raceTime ((softFetch now st.files).map (·.id))) hg
        rw [hug] at this
        exact this
      have hids1 : ((processSoftBatch raced updFail now raceTime
          (softFetch now st.files) st).files.map (·.id)).Nodup := by
        rw [processSoftBatch_ids]
        exact hids
      obtain ⟨hmem2, tail2, heq2, hne2⟩ := ih _ st2 h hids1 g hg1 hgdel
      refine ⟨hmem2, (softFetch now st.files).filterMap (softAuditOf raced updFail) ++ tail2, ?_, ?_⟩
      · rw [heq2]
        simp [processSoftBatch, List.append_assoc]
      · intro a ha
        rcases List.mem_append.mp ha with hnew | htl
        · obtain ⟨b, hbmem, hba⟩ := List.mem_filterMap.mp hnew
          have : a.fileId = b.id := softAuditOf_fileId raced updFail b a hba
          rw [this]
          intro hbidg
          exact hgid_notin (hbidg ▸ List.mem_map_of_mem (·.id) hbmem)
        · exact hne2 a htl

/-- Entries whose id differs from i contribute no count for i. -/
theorem countP_eq_zero_of_ne (tail : List DeletionActivity) (i : Nat)
    (h : ∀ a ∈ tail, a.fileId ≠ i) (p : DeletionActivity → Bool)
    (hp : ∀ a, p a = true → a.fileId = i) : tail.countP p = 0 := by
  rw [List.countP_eq_zero]
  intro a ha hpa
  exact h a ha (hp a hpa)

/-- Claim C5: in a stage 1 drain that terminates, every row with expiry
before now and deletedAt null either gets deletedAt set to now together
with EXACTLY one new SOFT_DELETED audit entry, or — when the conditional
update hits the P2025 race because a concurrent run already set deletedAt —
is treated as already handled: the row carries the concurrent value and NO
audit entry of any kind is added for it.  The updFail oracle (any other
database error of the conditional update) is assumed quiet, as the claim
speaks only of the success and race outcomes. -/
theorem C5_soft_delete_drain (raced updFail : Nat → Bool) (now raceTime : Int) (fuel : Nat)
    (st st2 : SoftState) (f : FileRow)
    (hexp : expiredPending now f = true)
    (hupd : ∀ n, updFail n = false)
    (hids : (st.files.map (·.id)).Nodup)
    (hrun : softDeleteDrain raced updFail now raceTime fuel st = some st2)
    (hf : f ∈ st.files) :
    (raced f.id = false →
      { f with deletedAt := some now } ∈ st2.files ∧
      countSoftFor st2.audit f.id = countSoftFor st.audit f.id + 1) ∧
    (raced f.id = true →
      { f with deletedAt := some raceTime } ∈ st2.files ∧
      countFor st2.audit f.id = countFor st.audit f.id) := by
  induction fuel generalizing st with
  | zero => cases hrun
  | succ k ih =>
    rw [softDeleteDrain] at hrun
    have hfmem_filter : f ∈ st.files.filter (expiredPending now) :=
      List.mem_filter.mpr ⟨hf, hexp⟩
    have hbne : ¬ (softFetch now st.files).isEmpty = true := by
      simp only [softFetch, List.isEmpty_iff, List.take_eq_nil_iff]
      rintro (h0 | hnil)
      · exact absurd h0 (by decide)
      · exact List.ne_nil_of_mem hfmem_filter hnil
    rw [if_neg hbne] at hrun
    set st1 := processSoftBatch raced updFail now raceTime (softFetch now st.files) st with hst1
    have hids1 : (st1.files.map (·.id)).Nodup := by
      rw [hst1, processSoftBatch_ids]
      exact hids
    have haudit1 : st1.audit =
        st.audit ++ (softFetch now st.files).filterMap (softAuditOf raced updFail) := by
      rw [hst1]
      rfl
    by_cases hfb : f ∈ softFetch now st.files
    · -- f is processed in this batch iteration
      have hbids : ((softFetch now st.files).map (·.id)).Nodup :=
        hids.sublist ((softFetch_sublist now st.files).map _)
      have hfid_in : f.id ∈ (softFetch now st.files).map (·.id) :=
        List.mem_map_of_mem _ hfb
      have hcounts := countFor_filterMap_soft raced updFail (softFetch now st.files) f hbids hfb hupd
      constructor
      · intro hr
        have huf : softUpdateRow raced updFail now raceTime
            ((softFetch now st.files).map (·.id)) f = { f with deletedAt := some now } := by
          unfold softUpdateRow
          rw [if_pos hfid_in, if_neg (by simp [hr]), if_neg (by simp [hupd f.id])]
        have hg1 : { f with deletedAt := some now } ∈ st1.files := by
          have hm := List.mem_map_of_mem (softUpdateRow raced updFail now raceTime
            ((softFetch now st.files).map (·.id))) hf
          rw [huf] at hm
          rw [hst1]
          exact hm
        obtain ⟨hmem2, tail2, heq2, hne2⟩ :=
          softDrain_stable raced updFail now raceTime k st1 st2 hrun hids1
            { f with deletedAt := some now } hg1 (by simp)
        refine ⟨hmem2, ?_⟩
        have htails : tail2.countP
            (fun a => decide (a.fileId = f.id ∧ a.status = DelStatus.SUCCESS_SOFT_DELETE)) = 0 :=
          countP_eq_zero_of_ne tail2 f.id (fun a ha => hne2 a ha) _
            (fun a ha => (of_decide_eq_true ha).1)
        have hnew := hcounts.2 hr
        simp only [countSoftFor] at hnew ⊢
        rw [heq2, haudit1]
        simp only [List.countP_append]
        omega
      · intro hr
        have huf : softUpdateRow raced updFail now raceTime
            ((softFetch now st.files).map (·.id)) f = { f with deletedAt := some raceTime } := by
          unfold softUpdateRow
          rw [if_pos hfid_in, if_pos hr]
        have hg1 : { f with deletedAt := some raceTime } ∈ st1.files := by
          have hm := List.mem_map_of_mem (softUpdateRow raced updFail now raceTime
            ((softFetch now st.files).map (·.id))) hf
          rw [huf] at hm
          rw [hst1]
          exact hm
        obtain ⟨hmem2, tail2, heq2, hne2⟩ :=
          softDrain_stable raced updFail now raceTime k st1 st2 hrun hids1
            { f with deletedAt := some raceTime } hg1 (by simp)
        refine ⟨hmem2, ?_⟩
        have htails : tail2.countP (fun a => decide (a.fileId = f.id)) = 0 :=
          countP_eq_zero_of_ne tail2 f.id (fun a ha => hne2 a ha) _
            (fun a ha => of_decide_eq_true ha)
        have hnew := hcounts.1
        rw [hr, if_pos rfl] at hnew
        simp only [countFor] at hnew ⊢
        rw [heq2, haudit1]
        simp only [List.countP_append]
        omega
    · -- f is matched but beyond this batch: unchanged, handled later
      have hfid_notin : f.id ∉ (softFetch now st.files).map (·.id) := by
        intro hmem
        obtain ⟨b, hbmem, hbid⟩ := List.mem_map.mp hmem
        have hbfiles := (mem_softFetch now st.files b hbmem).1
        have hbf : b = f := List.inj_on_of_nodup_map hids hbfiles hf hbid
        exact hfb (hbf ▸ hbmem)
      have hbatch_ne : ∀ b ∈ softFetch now st.files, b.id ≠ f.id := by
        intro b hb he
        exact hfid_notin (he ▸ List.mem_map_of_mem (·.id) hb)
      have huf : softUpdateRow raced updFail now raceTime
          ((softFetch now st.files).map (·.id)) f = f := by
        unfold softUpdateRow
        rw [if_neg hfid_notin]
      have hf1 : f ∈ st1.files := by
        have hm := List.mem_map_of_mem (softUpdateRow raced updFail now raceTime
          ((softFetch now st.files).map (·.id))) hf
        rw [huf] at hm
        rw [hst1]
        exact hm
      have hzero : ((softFetch now st.files).filterMap
          (softAuditOf raced updFail)).countP (fun a => decide (a.fileId = f.id)) = 0 :=
        countP_filterMap_soft_zero raced updFail _ f.id hbatch_ne _
          (fun a ha => of_decide_eq_true ha)
      have hzeroSoft : ((softFetch now st.files).filterMap
          (softAuditOf raced updFail)).countP
            (fun a => decide (a.fileId = f.id ∧ a.status = DelStatus.SUCCESS_SOFT_DELETE)) = 0 :=
        countP_filterMap_soft_zero raced updFail _ f.id hbatch_ne _
          (fun a ha => (of_decide_eq_true ha).1)
      have h1 : countFor st1.audit f.id = countFor st.audit f.id := by
        rw [haudit1]
        simp only [countFor, List.countP_append]
        omega
      have h1s : countSoftFor st1.audit f.id = countSoftFor st.audit f.id := by
        rw [haudit1]
        simp only [countSoftFor, List.countP_append]
        omega
      have hres := ih st1 hids1 hrun hf1
      constructor
      · intro hr
        obtain ⟨hmem2, hcnt⟩ := hres.1 hr
        exact ⟨hmem2, by rw [hcnt, h1s]⟩
      · intro hr
        obtain ⟨hmem2, hcnt⟩ := hres.2 hr
        exact ⟨hmem2, by rw [hcnt, h1]⟩

/-- Witness for C5_soft_delete_drain on a one-row store with no race. -/
theorem C5_soft_delete_drain_witness :
    { c5Row with deletedAt := some (5 : Int) } ∈ c5Post.files ∧
    countSoftFor c5Post.audit 1 = countSoftFor ([] : List DeletionActivity) 1 + 1 := by
  have h := C5_soft_delete_drain (fun _ => false) (fun _ => false) 5 9 2 c5State c5Post c5Row
    (by decide) (fun n => rfl) (by decide) rfl (by decide)
  exact h.1 rfl
